import Mathlib

/-!
Verification of the restaurant-reviews tool service
(`src/fastapi_app/mcp_server.py`) against its specification.

The four MCP tool operations are shallowly embedded as pure functions over
an explicit `Store` state.  The entity schema (the `models` module is not
part of the sources; only its callers are) is modelled from the spec, §3.
SQL numeric aggregation (`AVG` over integers) is modelled exactly with `ℚ`;
server-generated identifiers are modelled as independent serial counters,
and the server clock is passed explicitly as a `now` argument.
-/

/-- Modelled from the spec: the `Restaurant` entity of the missing `models`
module — integer server-generated `id`, required `name` and
`street_address`, optional `description`. -/
structure Restaurant where
  id : Nat
  name : String
  street_address : String
  description : Option String
deriving Repr, DecidableEq

/-- Modelled from the spec: the `Review` entity of the missing `models`
module — integer server-generated `id`, integer `restaurant` reference,
`user_name`, integer `rating`, `review_text`, and a creation timestamp
`review_date` (modelled as a `Nat` clock value). -/
structure Review where
  id : Nat
  restaurant : Nat
  user_name : String
  rating : Int
  review_text : String
  review_date : Nat
deriving Repr, DecidableEq

/-- The entity store: the two persisted collections plus the serial
counters the store uses to assign generated identifiers. -/
structure Store where
  restaurants : List Restaurant
  reviews : List Review
  nextRestaurantId : Nat
  nextReviewId : Nat
deriving Repr, DecidableEq

/-- The empty store, as a fresh database: serial counters start at 1. -/
def Store.empty : Store :=
  { restaurants := [], reviews := [], nextRestaurantId := 1, nextReviewId := 1 }

/-- Reachable-state invariant of the store: identifiers in each collection
are strictly increasing (hence unique) and below the serial counter.  It
holds for the empty store and is preserved by both create operations. -/
def Store.WF (s : Store) : Prop :=
  s.restaurants.Pairwise (fun a b => a.id < b.id) ∧
  (∀ r ∈ s.restaurants, r.id < s.nextRestaurantId) ∧
  s.reviews.Pairwise (fun a b => a.id < b.id) ∧
  (∀ rv ∈ s.reviews, rv.id < s.nextReviewId)

instance (s : Store) : Decidable s.WF := by
  unfold Store.WF; infer_instance

/-- SQL `AVG` over a column of nullable integers: `NULL` values are
ignored; the result is `NULL` when no non-`NULL` value exists, otherwise
the exact rational mean (PostgreSQL `avg(integer)` is exact `numeric`). -/
def sqlAvg (l : List (Option Int)) : Option ℚ :=
  if (l.filterMap id).isEmpty then none
  else some (((l.filterMap id).map (fun v : Int => (v : ℚ))).sum / (l.filterMap id).length)

/-- SQL `COUNT` over a column of nullable values: counts non-`NULL`
entries. -/
def sqlCount (l : List (Option Nat)) : Nat :=
  (l.filterMap id).length

/-- Python's built-in `round` on an exact rational: round half to even. -/
def pyRound (q : ℚ) : Int :=
  if q - ⌊q⌋ < 1/2 then ⌊q⌋
  else if q - ⌊q⌋ > 1/2 then ⌊q⌋ + 1
  else if ⌊q⌋ % 2 = 0 then ⌊q⌋ else ⌊q⌋ + 1

/-- The `LEFT OUTER JOIN ... ON Review.restaurant == Restaurant.id` rows
contributed by one restaurant's group: one row per matching review, or a
single all-`NULL` review row when no review matches. -/
def outerJoinRows (s : Store) (r : Restaurant) : List (Option Review) :=
  let matching := s.reviews.filter (fun rv => rv.restaurant == r.id)
  if matching.isEmpty then [none] else matching.map some

/-- One output record of `list_restaurants_mcp`: the restaurant's fields
plus the three derived fields added to the dict. -/
structure StatsRow where
  restaurant : Restaurant
  avg_rating : Option ℚ
  review_count : Nat
  stars_percent : Int
deriving Repr, DecidableEq

/-- `list_restaurants_mcp` from the source: select `Restaurant`,
`avg(Review.rating)`, `count(Review.id)` over the outer join grouped by
`Restaurant.id`, then per row set `avg_rating`, `review_count` and
`stars_percent = round((avg_rating / 5.0) * 100)` when `review_count > 0`
and `avg_rating` is not `None`, else `0`.  The query has no ORDER BY, so
SQL guarantees no order on the grouped rows; this function fixes the
stored-list enumeration, which is only one permissible execution — the
order-free semantics is `list_restaurants_sql` below. -/
def list_restaurants_mcp (s : Store) : List StatsRow :=
  s.restaurants.map (fun r =>
    let rows := outerJoinRows s r
    let avg_rating := sqlAvg (rows.map (fun o => o.map Review.rating))
    let review_count := sqlCount (rows.map (fun o => o.map Review.id))
    { restaurant := r
      avg_rating := avg_rating
      review_count := review_count
      stars_percent :=
        if review_count > 0 ∧ avg_rating.isSome then
          pyRound (avg_rating.getD 0 / 5 * 100)
        else 0 })

/-- The value `get_details_mcp` returns when the restaurant exists: the
restaurant's fields and the dicts of its related reviews. -/
structure Details where
  restaurant : Restaurant
  reviews : List Review
deriving Repr, DecidableEq

/-- `get_details_mcp` from the source: `first` restaurant whose `id`
equals `restaurant_id`; `None` if absent, otherwise the restaurant
together with all reviews whose `restaurant` equals `restaurant_id`. -/
def get_details_mcp (s : Store) (restaurant_id : Nat) : Option Details :=
  match s.restaurants.find? (fun r => r.id == restaurant_id) with
  | none => none
  | some restaurant =>
      some { restaurant := restaurant
             reviews := s.reviews.filter (fun rv => rv.restaurant == restaurant_id) }

/-- `create_review_mcp` from the source: build a `Review` with the given
`restaurant_id`, `user_name`, `rating`, `review_text`, `review_date` set
to the current server time, commit it (the store assigns the serial id),
and return the refreshed record together with the new store.  No existence
check on `restaurant_id` is performed. -/
def create_review_mcp (s : Store) (restaurant_id : Nat) (user_name : String)
    (rating : Int) (review_text : String) (now : Nat) : Review × Store :=
  let review : Review :=
    { id := s.nextReviewId
      restaurant := restaurant_id
      user_name := user_name
      rating := rating
      review_text := review_text
      review_date := now }
  (review,
   { s with reviews := s.reviews ++ [review], nextReviewId := s.nextReviewId + 1 })

/-- `create_restaurant_mcp` from the source: build a `Restaurant` with the
given `restaurant_name`, `street_address`, `description`, commit it (the
store assigns the serial id), and return the refreshed record together
with the new store. -/
def create_restaurant_mcp (s : Store) (restaurant_name : String)
    (street_address : String) (description : String) : Restaurant × Store :=
  let restaurant : Restaurant :=
    { id := s.nextRestaurantId
      name := restaurant_name
      street_address := street_address
      description := some description }
  (restaurant,
   { s with restaurants := s.restaurants ++ [restaurant]
            nextRestaurantId := s.nextRestaurantId + 1 })

/-- The read operations in the uniform state-passing shape: the session of
`list_restaurants_mcp` performs no `add`/`commit`, so the store component
is returned unchanged. -/
def list_restaurants_op (s : Store) : List StatsRow × Store :=
  (list_restaurants_mcp s, s)

/-- The session of `get_details_mcp` performs no `add`/`commit`, so the
store component is returned unchanged. -/
def get_details_op (s : Store) (restaurant_id : Nat) : Option Details × Store :=
  (get_details_mcp s restaurant_id, s)

/-- The reviews related to a restaurant identifier: spec-side description
of "all Reviews whose `restaurant` equals this Restaurant's `id`". -/
def reviewsOf (s : Store) (rid : Nat) : List Review :=
  s.reviews.filter (fun rv => rv.restaurant == rid)

/-- Spec-worded mean: the arithmetic mean of the ratings of the reviews
related to `rid`, `null` when there are none.  Used to compare the SQL
aggregation against the spec's description. -/
def specMeanRating (s : Store) (rid : Nat) : Option ℚ :=
  if (reviewsOf s rid).length = 0 then none
  else some (((reviewsOf s rid).map (fun rv => (rv.rating : ℚ))).sum /
    (reviewsOf s rid).length)

/-! ### Refinement of the SQL aggregation to the spec-worded description -/

/-- Pushing a column projection through the non-`NULL` join rows. -/
lemma filterMap_map_some {β : Type} (l : List Review) (f : Review → β) :
    ((l.map some).map (fun o => o.map f)).filterMap id = l.map f := by
  induction l with
  | nil => simp
  | cons a t ih => simp [ih]

/-- `AVG` over a column of non-`NULL` rows is the exact mean. -/
lemma sqlAvg_map_some (l : List Review) (hl : l ≠ []) :
    sqlAvg ((l.map some).map (fun o => o.map Review.rating)) =
      some ((l.map (fun rv => (rv.rating : ℚ))).sum / l.length) := by
  unfold sqlAvg
  rw [filterMap_map_some]
  rw [if_neg (by simpa using hl)]
  rw [List.map_map, List.length_map]
  rfl

/-- `COUNT` over a column of non-`NULL` rows is the row count. -/
lemma sqlCount_map_some (l : List Review) :
    sqlCount ((l.map some).map (fun o => o.map Review.id)) = l.length := by
  unfold sqlCount
  rw [filterMap_map_some, List.length_map]

/-- The `AVG(Review.rating)` computed over one restaurant's outer-join group
equals the spec-worded mean over the reviews related to the restaurant. -/
lemma sqlAvg_outerJoin (s : Store) (r : Restaurant) :
    sqlAvg ((outerJoinRows s r).map (fun o => o.map Review.rating)) =
      specMeanRating s r.id := by
  unfold outerJoinRows specMeanRating reviewsOf
  rcases hE : s.reviews.filter (fun rv => rv.restaurant == r.id) with _ | ⟨a, t⟩
  · rw [hE]
    simp [sqlAvg]
  · rw [hE]
    rw [if_neg (by simp), if_neg (by simp)]
    rw [sqlAvg_map_some _ (by simp)]

/-- The `COUNT(Review.id)` computed over one restaurant's outer-join group
equals the number of reviews related to the restaurant. -/
lemma sqlCount_outerJoin (s : Store) (r : Restaurant) :
    sqlCount ((outerJoinRows s r).map (fun o => o.map Review.id)) =
      (reviewsOf s r.id).length := by
  unfold sqlCount outerJoinRows reviewsOf
  rcases hE : s.reviews.filter (fun rv => rv.restaurant == r.id) with _ | ⟨a, t⟩
  · rw [hE]; simp
  · rw [hE]
    rw [if_neg (by simp)]
    rw [filterMap_map_some, List.length_map]

/-- The abstract per-restaurant output record, phrased with the spec-worded
aggregates. -/
def specRow (s : Store) (r : Restaurant) : StatsRow :=
  { restaurant := r
    avg_rating := specMeanRating s r.id
    review_count := (reviewsOf s r.id).length
    stars_percent :=
      if (reviewsOf s r.id).length > 0 ∧ (specMeanRating s r.id).isSome then
        pyRound ((specMeanRating s r.id).getD 0 / 5 * 100)
      else 0 }

/-- The join-and-group query produces exactly the abstract per-restaurant
record for each restaurant in store order. -/
lemma list_restaurants_eq_map (s : Store) :
    list_restaurants_mcp s = s.restaurants.map (specRow s) := by
  unfold list_restaurants_mcp
  refine List.map_congr_left (fun r _ => ?_)
  simp only [specRow, sqlAvg_outerJoin, sqlCount_outerJoin]

/-- The order-free semantics of the listing query: the source query has
no ORDER BY, so the store may return the grouped rows in any enumeration
`groups` of the stored restaurants; a permissible execution is
`groups.map (specRow s)` for any permutation `groups` of
`s.restaurants`. -/
def list_restaurants_sql (s : Store) (groups : List Restaurant) :
    List StatsRow :=
  groups.map (specRow s)

/-- `list_restaurants_mcp` is the stored-order execution of the query. -/
lemma list_restaurants_mcp_eq_sql (s : Store) :
    list_restaurants_mcp s = list_restaurants_sql s s.restaurants :=
  list_restaurants_eq_map s

/-! ### The well-formedness invariant holds on every reachable store -/

/-- The empty store is well-formed. -/
lemma wf_empty : Store.empty.WF := by
  constructor <;> simp [Store.empty]

/-- `create_restaurant_mcp` preserves well-formedness. -/
lemma wf_create_restaurant (s : Store) (h : s.WF)
    (n a d : String) : (create_restaurant_mcp s n a d).2.WF := by
  obtain ⟨h1, h2, h3, h4⟩ := h
  unfold create_restaurant_mcp Store.WF
  refine ⟨?_, ?_, h3, h4⟩
  · rw [List.pairwise_append]
    exact ⟨h1, by simp, fun x hx y hy => by
      simp only [List.mem_singleton] at hy
      subst hy; exact h2 x hx⟩
  · intro r hr
    rcases List.mem_append.mp hr with hl | hl
    · exact Nat.lt_succ_of_lt (h2 r hl)
    · simp only [List.mem_singleton] at hl
      subst hl; exact Nat.lt_succ_self _

/-- `create_review_mcp` preserves well-formedness. -/
lemma wf_create_review (s : Store) (h : s.WF) (rid : Nat)
    (u : String) (rat : Int) (txt : String) (now : Nat) :
    (create_review_mcp s rid u rat txt now).2.WF := by
  obtain ⟨h1, h2, h3, h4⟩ := h
  unfold create_review_mcp Store.WF
  refine ⟨h1, h2, ?_, ?_⟩
  · rw [List.pairwise_append]
    exact ⟨h3, by simp, fun x hx y hy => by
      simp only [List.mem_singleton] at hy
      subst hy; exact h4 x hx⟩
  · intro rv hrv
    rcases List.mem_append.mp hrv with hl | hl
    · exact Nat.lt_succ_of_lt (h4 rv hl)
    · simp only [List.mem_singleton] at hl
      subst hl; exact Nat.lt_succ_self _

/-! ### Claims about the aggregation query -/

/-- C1: every Restaurant in the store with no Reviews yields, in the output
of "list restaurants with stats", a record with `review_count = 0`,
`avg_rating = null` and `stars_percent = 0`: the outer join preserves
zero-review restaurants instead of dropping them. -/
theorem C1_zero_review_restaurant_included (s : Store) (r : Restaurant)
    (hmem : r ∈ s.restaurants)
    (hnone : ∀ rv ∈ s.reviews, rv.restaurant ≠ r.id) :
    (⟨r, none, 0, 0⟩ : StatsRow) ∈ list_restaurants_mcp s := by
  have hfil : reviewsOf s r.id = [] := by
    unfold reviewsOf
    rw [List.filter_eq_nil_iff]
    intro rv hrv
    simpa using hnone rv hrv
  rw [list_restaurants_eq_map]
  have hrow : specRow s r = (⟨r, none, 0, 0⟩ : StatsRow) := by
    unfold specRow specMeanRating
    simp [hfil]
  exact hrow ▸ List.mem_map_of_mem (specRow s) hmem

/-- Witness for C1 on a one-restaurant, zero-review store. -/
theorem C1_zero_review_restaurant_included_witness :
    (⟨⟨1, "A", "S", none⟩, none, 0, 0⟩ : StatsRow) ∈
      list_restaurants_mcp ⟨[⟨1, "A", "S", none⟩], [], 2, 1⟩ :=
  C1_zero_review_restaurant_included _ _ (by decide) (by decide)

/-- C3: "get restaurant details" on an identifier matching no Restaurant
returns the explicit absent result `none` (the operation is a total
function into `Option`, so absence is a value, never a raised error). -/
theorem C3_details_not_found (s : Store) (rid : Nat)
    (h : ∀ r ∈ s.restaurants, r.id ≠ rid) :
    get_details_mcp s rid = none := by
  unfold get_details_mcp
  have hfind : s.restaurants.find? (fun r => r.id == rid) = none := by
    rw [List.find?_eq_none]
    intro r hr
    simpa using h r hr
  rw [hfind]

/-- Witness for C3: identifier 2 on a store holding only restaurant 1. -/
theorem C3_details_not_found_witness :
    get_details_mcp ⟨[⟨1, "A", "S", none⟩], [], 2, 1⟩ 2 = none :=
  C3_details_not_found _ _ (by decide)

/-- Two restaurants used by the C5 analysis. -/
def rA : Restaurant := ⟨1, "A", "S", none⟩

/-- Second restaurant of the C5 analysis. -/
def rB : Restaurant := ⟨2, "B", "T", none⟩

/-- A store holding the restaurants 1 and 2 and no reviews. -/
def twoStore : Store := ⟨[rA, rB], [], 3, 1⟩

/-- Counterexample to C5 as stated: the query has no ORDER BY, so the
store may legally return the grouped rows in an enumeration that is not
ordered by restaurant identity.  On a store holding restaurants 1 and 2,
the execution that enumerates the groups as [2, 1] ranges over a
permutation of the stored restaurants, yet its output is not id-ordered. -/
theorem C5_counterexample :
    List.Perm [rB, rA] twoStore.restaurants ∧
    ¬ (list_restaurants_sql twoStore [rB, rA]).Pairwise
      (fun a b => a.restaurant.id < b.restaurant.id) := by
  constructor
  · exact List.Perm.swap _ _ _
  · intro h
    have hl : list_restaurants_sql twoStore [rB, rA]
        = [specRow twoStore rB, specRow twoStore rA] := rfl
    rw [hl] at h
    have h21 := (List.pairwise_cons.mp h).1 (specRow twoStore rA)
      (List.mem_cons_self _ _)
    simp [specRow, rA, rB] at h21

/-- C5 (amended): the listing query takes only the store; under every
permissible execution order (any enumeration `groups` of the stored
restaurants) its output has exactly one record per Restaurant that exists
in the store — the restaurant components are exactly `groups`, a
permutation of the stored restaurants.  No ordering by restaurant
identity is guaranteed, the query having no ORDER BY. -/
theorem C5_one_record_per_restaurant (s : Store) (groups : List Restaurant)
    (hperm : groups.Perm s.restaurants) :
    (list_restaurants_sql s groups).map StatsRow.restaurant = groups ∧
    ((list_restaurants_sql s groups).map StatsRow.restaurant).Perm
      s.restaurants := by
  have hmap : (list_restaurants_sql s groups).map StatsRow.restaurant
      = groups := by
    unfold list_restaurants_sql
    rw [List.map_map]
    have hco : StatsRow.restaurant ∘ specRow s = id := rfl
    rw [hco, List.map_id]
  refine ⟨hmap, ?_⟩
  rw [hmap]
  exact hperm

/-- Witness for C5 (amended): the reversed enumeration over the concrete
two-restaurant store. -/
theorem C5_one_record_per_restaurant_witness :
    (list_restaurants_sql twoStore [rB, rA]).map StatsRow.restaurant
      = [rB, rA] ∧
    ((list_restaurants_sql twoStore [rB, rA]).map StatsRow.restaurant).Perm
      twoStore.restaurants :=
  C5_one_record_per_restaurant twoStore [rB, rA] (List.Perm.swap _ _ _)

/-- C9: both read operations leave the store unchanged, and running either
twice with no intervening write yields the same result both times. -/
theorem C9_reads_pure_and_idempotent (s : Store) (rid : Nat) :
    (list_restaurants_op s).2 = s ∧
    (get_details_op s rid).2 = s ∧
    (list_restaurants_op (list_restaurants_op s).2).1 =
      (list_restaurants_op s).1 ∧
    (get_details_op (get_details_op s rid).2 rid).1 =
      (get_details_op s rid).1 :=
  ⟨rfl, rfl, rfl, rfl⟩

/-! ### Claims about the mutations and the detail lookup -/

/-- C4: "create review" performs no existence check on `restaurant_id`:
even when no Restaurant with that identifier exists, the review is
persisted with the dangling reference, and still no such restaurant
exists afterwards — an orphaned Review is created. -/
theorem C4_orphan_review_creatable (s : Store) (rid : Nat) (u : String)
    (rat : Int) (txt : String) (now : Nat)
    (h : ∀ r ∈ s.restaurants, r.id ≠ rid) :
    (create_review_mcp s rid u rat txt now).1.restaurant = rid ∧
    (create_review_mcp s rid u rat txt now).1 ∈
      (create_review_mcp s rid u rat txt now).2.reviews ∧
    ∀ r ∈ (create_review_mcp s rid u rat txt now).2.restaurants,
      r.id ≠ rid := by
  refine ⟨rfl, ?_, h⟩
  unfold create_review_mcp
  simp

/-- Witness for C4: an orphan review against identifier 1 on the empty
store. -/
theorem C4_orphan_review_creatable_witness :
    (create_review_mcp Store.empty 1 "bob" 2 "ok" 7).1.restaurant = 1 ∧
    (create_review_mcp Store.empty 1 "bob" 2 "ok" 7).1 ∈
      (create_review_mcp Store.empty 1 "bob" 2 "ok" 7).2.reviews ∧
    ∀ r ∈ (create_review_mcp Store.empty 1 "bob" 2 "ok" 7).2.restaurants,
      r.id ≠ 1 :=
  C4_orphan_review_creatable _ _ _ _ _ _ (by decide)

/-- In a list of restaurants with strictly increasing identifiers, an
identifier determines the element. -/
lemma restaurant_id_unique {l : List Restaurant}
    (hp : l.Pairwise (fun a b => a.id < b.id)) :
    ∀ a ∈ l, ∀ b ∈ l, a.id = b.id → a = b := by
  induction l with
  | nil => simp
  | cons x t ih =>
    intro a ha b hb heq
    obtain ⟨hx, ht⟩ := List.pairwise_cons.mp hp
    rcases List.mem_cons.mp ha with ha1 | ha2
    · rcases List.mem_cons.mp hb with hb1 | hb2
      · rw [ha1, hb1]
      · subst ha1
        exact absurd heq (Nat.ne_of_lt (hx b hb2))
    · rcases List.mem_cons.mp hb with hb1 | hb2
      · subst hb1
        exact absurd heq.symm (Nat.ne_of_lt (hx a ha2))
      · exact ih ht a ha2 b hb2 heq

/-- C6: on a well-formed store, "get restaurant details" for an existing
identifier returns that Restaurant's full field set together with exactly
the reviews whose `restaurant` field equals the identifier: every matching
review is included and no non-matching review is. -/
theorem C6_details_of_existing (s : Store) (rid : Nat) (r : Restaurant)
    (hWF : s.WF) (hmem : r ∈ s.restaurants) (hid : r.id = rid) :
    get_details_mcp s rid =
      some ⟨r, s.reviews.filter (fun rv => rv.restaurant == rid)⟩ ∧
    ∀ rv : Review,
      rv ∈ s.reviews.filter (fun rv => rv.restaurant == rid) ↔
        rv ∈ s.reviews ∧ rv.restaurant = rid := by
  constructor
  · unfold get_details_mcp
    rcases hf : s.restaurants.find? (fun x => x.id == rid) with _ | r0
    · exfalso
      have hfail := List.find?_eq_none.mp hf r hmem
      simp [hid] at hfail
    · have hr0mem : r0 ∈ s.restaurants := List.mem_of_find?_eq_some hf
      have hr0id : r0.id = rid := by
        have hp := List.find?_some hf
        simpa using hp
      have heq : r0 = r :=
        restaurant_id_unique hWF.1 r0 hr0mem r hmem (by rw [hr0id, hid])
      rw [hf, heq]
  · intro rv
    simp [List.mem_filter]

/-- A sample restaurant used by concrete witnesses. -/
def sampleRestaurant : Restaurant := ⟨1, "A", "S", none⟩

/-- A sample store: one restaurant, one matching and one orphaned review. -/
def sampleStore : Store :=
  ⟨[sampleRestaurant], [⟨1, 1, "u", 5, "t", 3⟩, ⟨2, 2, "v", 1, "w", 4⟩], 2, 3⟩

/-- Witness for C6 on the sample store, instantiating the review
characterization at the matching review. -/
theorem C6_details_of_existing_witness :
    get_details_mcp sampleStore 1 =
      some ⟨sampleRestaurant,
        sampleStore.reviews.filter (fun rv => rv.restaurant == 1)⟩ ∧
    ((⟨1, 1, "u", 5, "t", 3⟩ : Review) ∈
        sampleStore.reviews.filter (fun rv => rv.restaurant == 1) ↔
      (⟨1, 1, "u", 5, "t", 3⟩ : Review) ∈ sampleStore.reviews ∧
        (⟨1, 1, "u", 5, "t", 3⟩ : Review).restaurant = 1) :=
  ⟨(C6_details_of_existing sampleStore 1 sampleRestaurant (by decide)
      (by decide) (by decide)).1,
   (C6_details_of_existing sampleStore 1 sampleRestaurant (by decide)
      (by decide) (by decide)).2 _⟩

/-- `find?` skips a prefix on which it fails. -/
lemma find?_append_of_none {α : Type} {p : α → Bool} {l1 l2 : List α}
    (h : l1.find? p = none) : (l1 ++ l2).find? p = l2.find? p := by
  induction l1 with
  | nil => simp
  | cons a t ih =>
    have hall := List.find?_eq_none.mp h
    have ha : ¬ p a = true := hall a (List.mem_cons_self a t)
    rw [List.cons_append, List.find?_cons_of_neg _ ha]
    exact ih (List.find?_eq_none.mpr
      (fun x hx => hall x (List.mem_cons_of_mem a hx)))

/-- A reachable store holding one orphaned review whose dangling
`restaurant` reference equals the identifier the store will assign to the
next created restaurant. -/
def orphanStore : Store :=
  (create_review_mcp Store.empty 1 "alice" 4 "good" 100).2

/-- Counterexample to C7 as stated: on `orphanStore`, "create restaurant"
assigns identifier 1, and the immediate detail lookup on 1 returns a
non-empty review list (the pre-existing orphan review), not an empty
one. -/
theorem C7_counterexample :
    (get_details_mcp (create_restaurant_mcp orphanStore "N" "A" "D").2
        (create_restaurant_mcp orphanStore "N" "A" "D").1.id).map
      Details.reviews ≠ some [] := by
  decide

/-- C7 (amended): on a well-formed store in which no existing Review
references the identifier about to be assigned, "create restaurant"
followed immediately by "get restaurant details" on the generated id
returns exactly the created record with an empty review list. -/
theorem C7_create_then_read (s : Store) (n a d : String) (hWF : s.WF)
    (hnoref : ∀ rv ∈ s.reviews, rv.restaurant ≠ s.nextRestaurantId) :
    get_details_mcp (create_restaurant_mcp s n a d).2
        (create_restaurant_mcp s n a d).1.id =
      some ⟨(create_restaurant_mcp s n a d).1, []⟩ := by
  unfold get_details_mcp create_restaurant_mcp
  have h1 : s.restaurants.find? (fun x => x.id == s.nextRestaurantId)
      = none := by
    rw [List.find?_eq_none]
    intro x hx
    simpa using Nat.ne_of_lt (hWF.2.1 x hx)
  rw [find?_append_of_none h1]
  have h3 : s.reviews.filter
      (fun rv => rv.restaurant == s.nextRestaurantId) = [] := by
    rw [List.filter_eq_nil_iff]
    intro rv hrv
    simpa using hnoref rv hrv
  simp [h3]

/-- A store with one restaurant and one review attached to it; no review
references the next restaurant identifier. -/
def cleanStore : Store := ⟨[sampleRestaurant], [⟨1, 1, "u", 5, "t", 3⟩], 2, 2⟩

/-- Witness for C7 (amended) on `cleanStore`: its single existing review
references restaurant 1, not the next identifier 2. -/
theorem C7_create_then_read_witness :
    get_details_mcp (create_restaurant_mcp cleanStore "B" "T" "D").2
        (create_restaurant_mcp cleanStore "B" "T" "D").1.id =
      some ⟨(create_restaurant_mcp cleanStore "B" "T" "D").1, []⟩ :=
  C7_create_then_read cleanStore "B" "T" "D" (by decide) (by decide)

/-- C8: "create review" returns the created record with the given rating,
`review_date` set to the server clock at creation, and the
server-generated identifier; when the owning restaurant exists, a
subsequent "get restaurant details" on it includes the new review. -/
theorem C8_create_review_roundtrip (s : Store) (rid : Nat) (u : String)
    (rat : Int) (txt : String) (now : Nat) (r : Restaurant)
    (hmem : r ∈ s.restaurants) (hid : r.id = rid) :
    (create_review_mcp s rid u rat txt now).1.rating = rat ∧
    (create_review_mcp s rid u rat txt now).1.review_date = now ∧
    (create_review_mcp s rid u rat txt now).1.id = s.nextReviewId ∧
    (create_review_mcp s rid u rat txt now).1 ∈
      (get_details_mcp (create_review_mcp s rid u rat txt now).2 rid).elim []
        Details.reviews := by
  refine ⟨rfl, rfl, rfl, ?_⟩
  unfold get_details_mcp create_review_mcp
  rcases hf : s.restaurants.find? (fun x => x.id == rid) with _ | r0
  · exfalso
    have hfail := List.find?_eq_none.mp hf r hmem
    simp [hid] at hfail
  · rw [hf]
    simp [List.mem_filter]

/-- Witness for C8: rating 2 against the existing restaurant 1 of the
sample store. -/
theorem C8_create_review_roundtrip_witness :
    (create_review_mcp sampleStore 1 "bob" 2 "ok" 9).1.rating = 2 ∧
    (create_review_mcp sampleStore 1 "bob" 2 "ok" 9).1.review_date = 9 ∧
    (create_review_mcp sampleStore 1 "bob" 2 "ok" 9).1.id =
      sampleStore.nextReviewId ∧
    (create_review_mcp sampleStore 1 "bob" 2 "ok" 9).1 ∈
      (get_details_mcp (create_review_mcp sampleStore 1 "bob" 2 "ok" 9).2
          1).elim [] Details.reviews :=
  C8_create_review_roundtrip sampleStore 1 "bob" 2 "ok" 9 sampleRestaurant
    (by decide) (by decide)

/-! ### Numeric facts about the rounding and the mean -/

/-- `pyRound` never rounds below the floor. -/
lemma floor_le_pyRound (q : ℚ) : ⌊q⌋ ≤ pyRound q := by
  unfold pyRound
  split_ifs <;> omega

/-- An integer lower bound on the argument bounds `pyRound` below. -/
lemma le_pyRound_of_le (n : ℤ) (q : ℚ) (h : (n : ℚ) ≤ q) : n ≤ pyRound q :=
  le_trans (Int.le_floor.mpr h) (floor_le_pyRound q)

/-- An integer upper bound on the argument bounds `pyRound` above. -/
lemma pyRound_le_of_le (n : ℤ) (q : ℚ) (h : q ≤ (n : ℚ)) : pyRound q ≤ n := by
  have hfl : ⌊q⌋ ≤ n := le_of_le_of_eq (Int.floor_le_floor h) (Int.floor_intCast n)
  unfold pyRound
  split_ifs with h1 h2 h3
  · exact hfl
  · by_contra hc
    push_neg at hc
    have hn : n ≤ ⌊q⌋ := Int.lt_add_one_iff.mp hc
    have hcast : (n : ℚ) ≤ (⌊q⌋ : ℚ) := Int.cast_le.mpr hn
    linarith
  · exact hfl
  · have heq : q - ⌊q⌋ = 1/2 := le_antisymm (not_lt.mp h2) (not_lt.mp h1)
    by_contra hc
    push_neg at hc
    have hn : n ≤ ⌊q⌋ := Int.lt_add_one_iff.mp hc
    have hcast : (n : ℚ) ≤ (⌊q⌋ : ℚ) := Int.cast_le.mpr hn
    linarith

/-- A pointwise upper bound on a list bounds its sum. -/
lemma list_sum_le_length_mul (l : List ℚ) (b : ℚ) (h : ∀ x ∈ l, x ≤ b) :
    l.sum ≤ l.length * b := by
  induction l with
  | nil => simp
  | cons a t ih =>
    have ht := ih (fun x hx => h x (List.mem_cons_of_mem a hx))
    have ha := h a (List.mem_cons_self a t)
    simp only [List.sum_cons, List.length_cons]
    push_cast
    linarith

/-- A pointwise lower bound on a list bounds its sum. -/
lemma length_mul_le_list_sum (l : List ℚ) (b : ℚ) (h : ∀ x ∈ l, b ≤ x) :
    l.length * b ≤ l.sum := by
  induction l with
  | nil => simp
  | cons a t ih =>
    have ht := ih (fun x hx => h x (List.mem_cons_of_mem a hx))
    have ha := h a (List.mem_cons_self a t)
    simp only [List.sum_cons, List.length_cons]
    push_cast
    linarith

/-- The mean of a nonempty list of rationals lying in `[1, 5]` lies in
`[1, 5]`. -/
lemma mean_bounds (l : List ℚ) (hl : l ≠ [])
    (h : ∀ x ∈ l, 1 ≤ x ∧ x ≤ 5) :
    1 ≤ l.sum / l.length ∧ l.sum / l.length ≤ 5 := by
  have hn : (0 : ℚ) < l.length := by
    have := List.length_pos.mpr hl
    exact_mod_cast this
  constructor
  · rw [le_div_iff₀ hn]
    have := length_mul_le_list_sum l 1 (fun x hx => (h x hx).1)
    linarith
  · rw [div_le_iff₀ hn]
    have := list_sum_le_length_mul l 5 (fun x hx => (h x hx).2)
    linarith

/-- The output record of a restaurant with no related reviews. -/
lemma specRow_of_no_reviews (s : Store) (r : Restaurant)
    (hnil : reviewsOf s r.id = []) :
    specRow s r = (⟨r, none, 0, 0⟩ : StatsRow) := by
  unfold specRow specMeanRating
  simp [hnil]

/-- The output record of a restaurant with at least one related review:
count, exact mean, and rounded stars percentage. -/
lemma specRow_of_reviews (s : Store) (r : Restaurant)
    (hne : reviewsOf s r.id ≠ []) :
    (specRow s r).review_count = (reviewsOf s r.id).length ∧
    (specRow s r).avg_rating =
      some (((reviewsOf s r.id).map (fun rv => (rv.rating : ℚ))).sum /
        (reviewsOf s r.id).length) ∧
    (specRow s r).stars_percent =
      pyRound (((reviewsOf s r.id).map (fun rv => (rv.rating : ℚ))).sum /
        (reviewsOf s r.id).length / 5 * 100) := by
  have hlen0 : (reviewsOf s r.id).length ≠ 0 :=
    fun h0 => hne (List.length_eq_zero.mp h0)
  refine ⟨rfl, ?_, ?_⟩
  · unfold specRow specMeanRating
    rw [if_neg hlen0]
  · unfold specRow specMeanRating
    rw [if_neg hlen0]
    rw [if_pos ⟨Nat.pos_of_ne_zero hlen0, rfl⟩]
    simp

/-- C10 (implicit): when every stored rating lies in `[1, 5]`, every
record of "list restaurants with stats" has `stars_percent` in `[0, 100]`:
exactly `0` when `review_count = 0`, and in `[20, 100]` when
`review_count > 0`. -/
theorem C10_stars_percent_range (s : Store)
    (hrat : ∀ rv ∈ s.reviews, 1 ≤ rv.rating ∧ rv.rating ≤ 5) :
    ∀ row ∈ list_restaurants_mcp s,
      0 ≤ row.stars_percent ∧ row.stars_percent ≤ 100 ∧
      (row.review_count = 0 → row.stars_percent = 0) ∧
      (0 < row.review_count →
        20 ≤ row.stars_percent ∧ row.stars_percent ≤ 100) := by
  intro row hrow
  rw [list_restaurants_eq_map] at hrow
  obtain ⟨r, hr, rfl⟩ := List.mem_map.mp hrow
  by_cases hnil : reviewsOf s r.id = []
  · rw [specRow_of_no_reviews s r hnil]
    refine ⟨le_refl 0, by norm_num, fun _ => rfl, fun hpos => absurd hpos ?_⟩
    simp
  · obtain ⟨hcnt, havg, hstars⟩ := specRow_of_reviews s r hnil
    have hlen0 : (reviewsOf s r.id).length ≠ 0 :=
      fun h0 => hnil (List.length_eq_zero.mp h0)
    have hq : ∀ x ∈ (reviewsOf s r.id).map (fun rv => (rv.rating : ℚ)),
        1 ≤ x ∧ x ≤ 5 := by
      intro x hx
      obtain ⟨rv, hrv, rfl⟩ := List.mem_map.mp hx
      have hmem' : rv ∈ s.reviews := (List.mem_filter.mp hrv).1
      obtain ⟨hl, hu⟩ := hrat rv hmem'
      exact ⟨by exact_mod_cast hl, by exact_mod_cast hu⟩
    have hmb := mean_bounds ((reviewsOf s r.id).map (fun rv => (rv.rating : ℚ)))
      (by simpa using hnil) hq
    rw [List.length_map] at hmb
    obtain ⟨hm1, hm5⟩ := hmb
    have h20 : (20 : ℤ) ≤ (specRow s r).stars_percent := by
      rw [hstars]
      refine le_pyRound_of_le 20 _ ?_
      push_cast
      linarith
    have h100 : (specRow s r).stars_percent ≤ (100 : ℤ) := by
      rw [hstars]
      refine pyRound_le_of_le 100 _ ?_
      push_cast
      linarith
    refine ⟨le_trans (by norm_num) h20, h100, fun h0 => ?_, fun _ => ⟨h20, h100⟩⟩
    rw [hcnt] at h0
    exact absurd h0 hlen0

/-- Witness for C10 on the sample store (its ratings are 5 and 1),
instantiated at the record of restaurant 1. -/
theorem C10_stars_percent_range_witness :
    0 ≤ (specRow sampleStore sampleRestaurant).stars_percent ∧
    (specRow sampleStore sampleRestaurant).stars_percent ≤ 100 ∧
    ((specRow sampleStore sampleRestaurant).review_count = 0 →
      (specRow sampleStore sampleRestaurant).stars_percent = 0) ∧
    (0 < (specRow sampleStore sampleRestaurant).review_count →
      20 ≤ (specRow sampleStore sampleRestaurant).stars_percent ∧
      (specRow sampleStore sampleRestaurant).stars_percent ≤ 100) :=
  C10_stars_percent_range sampleStore (by decide)
    (specRow sampleStore sampleRestaurant)
    (by rw [list_restaurants_eq_map]
        exact List.mem_map_of_mem _ (by decide))

/-- Spec-worded stars percentage: `round((avg_rating / 5.0) * 100)` when
`review_count > 0` and `avg_rating` is not null, otherwise `0`. -/
def specStars (s : Store) (rid : Nat) : Int :=
  match specMeanRating s rid with
  | some a => if (reviewsOf s rid).length > 0 then pyRound (a / 5 * 100) else 0
  | none => 0

/-- The SQL-computed row coincides with the spec-worded record. -/
lemma specRow_eq_spec_fields (s : Store) (r : Restaurant) :
    specRow s r = (⟨r, specMeanRating s r.id, (reviewsOf s r.id).length,
      specStars s r.id⟩ : StatsRow) := by
  have hstars_eq :
      (if (reviewsOf s r.id).length > 0 ∧ (specMeanRating s r.id).isSome then
        pyRound ((specMeanRating s r.id).getD 0 / 5 * 100)
      else 0) = specStars s r.id := by
    unfold specStars
    rcases hm : specMeanRating s r.id with _ | a
    · simp
    · by_cases hp : (reviewsOf s r.id).length > 0
      · simp [hp]
      · simp [hp]
  unfold specRow
  rw [hstars_eq]

/-- A store whose single restaurant has exactly the reviews with ratings
3, 4 and 5. -/
def store345 : Store :=
  ⟨[⟨1, "A", "S", none⟩],
   [⟨1, 1, "u", 3, "x", 1⟩, ⟨2, 1, "v", 4, "y", 2⟩, ⟨3, 1, "w", 5, "z", 3⟩],
   2, 4⟩

/-- On `store345`, the mean rating of restaurant 1 is exactly 4. -/
lemma store345_mean : specMeanRating store345 1 = some 4 := by
  unfold specMeanRating
  rw [show reviewsOf store345 1 =
    [⟨1, 1, "u", 3, "x", 1⟩, ⟨2, 1, "v", 4, "y", 2⟩, ⟨3, 1, "w", 5, "z", 3⟩]
    from rfl]
  norm_num

/-- On `store345`, the stars percentage of restaurant 1 is exactly 80. -/
lemma store345_stars : specStars store345 1 = 80 := by
  unfold specStars
  rw [store345_mean]
  show (if (reviewsOf store345 1).length > 0
    then pyRound ((4 : ℚ) / 5 * 100) else 0) = 80
  rw [if_pos (by decide)]
  norm_num [pyRound]

/-- The record of restaurant 1 in the output over `store345`. -/
lemma store345_row :
    specRow store345 ⟨1, "A", "S", none⟩ =
      (⟨⟨1, "A", "S", none⟩, some 4, 3, 80⟩ : StatsRow) := by
  rw [specRow_eq_spec_fields]
  dsimp only
  rw [store345_mean, store345_stars]
  rfl

/-- C2: for every Restaurant, the output record of "list restaurants with
stats" carries the arithmetic mean of its related ratings, their count,
and `round((avg_rating / 5.0) * 100)` when the count is positive and the
mean non-null (else 0); in particular for ratings [3, 4, 5] the record is
`avg_rating = 4`, `review_count = 3`, `stars_percent = 80`. -/
theorem C2_avg_count_stars (s : Store) (r : Restaurant)
    (hmem : r ∈ s.restaurants) :
    (⟨r, specMeanRating s r.id, (reviewsOf s r.id).length,
        specStars s r.id⟩ : StatsRow) ∈ list_restaurants_mcp s ∧
    (⟨⟨1, "A", "S", none⟩, some 4, 3, 80⟩ : StatsRow) ∈
      list_restaurants_mcp store345 := by
  constructor
  · rw [list_restaurants_eq_map]
    exact specRow_eq_spec_fields s r ▸ List.mem_map_of_mem (specRow s) hmem
  · rw [list_restaurants_eq_map]
    exact store345_row ▸ List.mem_map_of_mem (specRow store345) (by decide)

/-- Witness for C2 on `store345` itself. -/
theorem C2_avg_count_stars_witness :
    (⟨⟨1, "A", "S", none⟩, specMeanRating store345 1,
        (reviewsOf store345 1).length, specStars store345 1⟩ : StatsRow) ∈
      list_restaurants_mcp store345 ∧
    (⟨⟨1, "A", "S", none⟩, some 4, 3, 80⟩ : StatsRow) ∈
      list_restaurants_mcp store345 :=
  C2_avg_count_stars store345 ⟨1, "A", "S", none⟩ (by decide)
